import Mathlib

/-!
Verification of the currency-converter rate-aggregation core.

The definitions below are a shallow embedding of the Python sources:
  * `app/services/circuit_breaker.py`  (CircuitBreaker)
  * `app/cache/redis_manager.py`       (Redis-backed breaker state and fresh cache)
  * `app/services/rate_aggregator.py`  (RateAggregatorService)
  * `app/providers/base.py` and `app/providers/fixerio.py` (provider client)
  * `app/workers/rate_ingestor.py` and `app/config/worker.py` (ingestor)

Decimal values are embedded as exact rationals (`ℚ`); wall-clock instants as
natural numbers.  Redis state is passed explicitly; `async` effects become
explicit state threading.  Wall-clock durations (`response_time_ms`) are not
modelled and are fixed to 0.
-/

namespace CurrencyConverter

/-! ## Circuit breaker (`circuit_breaker.py` + breaker keys of `redis_manager.py`) -/

/-- `CircuitBreakerState` enum of `redis_manager.py`. -/
inductive CBState where
  | CLOSED
  | OPEN
  | HALF_OPEN
  deriving Repr, DecidableEq

/-- The per-provider Redis keys `circuit_breaker:PID:state`, `:failures`,
`:last_failure`.  A missing `state` key is `none`; a missing/expired
`failures` key reads as 0 (`get_failure_count` returns 0 when the key is
absent), so it is embedded as a plain `Nat`. -/
structure KVState where
  cbState : Option CBState
  failures : Nat
  lastFailure : Option Nat
  deriving Repr, DecidableEq

/-- One `CircuitBreaker` instance: the shared Redis keys plus the in-process
`_consecutive_successes` counter. -/
structure Breaker where
  kv : KVState
  consecutiveSuccesses : Nat
  deriving Repr, DecidableEq

/-- Constructor arguments `failure_threshold`, `recovery_timeout`,
`success_threshold` of `CircuitBreaker.__init__`. -/
structure CBConfig where
  failure_threshold : Nat
  recovery_timeout : Nat
  success_threshold : Nat
  deriving Repr, DecidableEq

/-- `RedisManager.get_circuit_breaker_state`: a missing key reads as CLOSED. -/
def getCBState (kv : KVState) : CBState :=
  kv.cbState.getD CBState.CLOSED

/-- `RedisManager.increment_failure_count`.  When the pipelined INCR succeeds
(`ok = true`) the count is incremented and the new value returned; on a Redis
error the method logs and returns 0 without having changed anything
(`redis_manager.py` lines 319-359). -/
def incrementFailureCount (ok : Bool) (kv : KVState) : KVState × Nat :=
  if ok then ({ kv with failures := kv.failures + 1 }, kv.failures + 1)
  else (kv, 0)

/-- `RedisManager.reset_failure_count`: deletes the failures key, so it
subsequently reads as 0. -/
def resetFailureCount (kv : KVState) : KVState :=
  { kv with failures := 0 }

/-- `RedisManager.set_circuit_breaker_state`: one pipeline writing the state
and failure count, stamping `last_failure` only when the new state is OPEN. -/
def setCBStateKV (kv : KVState) (s : CBState) (failureCount : Nat) (now : Nat) : KVState :=
  { cbState := some s,
    failures := failureCount,
    lastFailure := if s = CBState.OPEN then some now else kv.lastFailure }

/-- `CircuitBreaker._transition_to_open`: re-reads the failure count and
writes state OPEN with it; zeroes `_consecutive_successes`. -/
def transitionToOpen (b : Breaker) (now : Nat) : Breaker :=
  let failureCount := b.kv.failures
  { kv := setCBStateKV b.kv CBState.OPEN failureCount now,
    consecutiveSuccesses := 0 }

/-- `CircuitBreaker._transition_to_closed`: writes state CLOSED with count 0,
then deletes the failures key; zeroes `_consecutive_successes`. -/
def transitionToClosed (b : Breaker) (now : Nat) : Breaker :=
  { kv := resetFailureCount (setCBStateKV b.kv CBState.CLOSED 0 now),
    consecutiveSuccesses := 0 }

/-- `CircuitBreaker._transition_to_half_open`. -/
def transitionToHalfOpen (b : Breaker) (now : Nat) : Breaker :=
  { kv := setCBStateKV b.kv CBState.HALF_OPEN 0 now,
    consecutiveSuccesses := 0 }

/-- `CircuitBreaker._on_success` (`circuit_breaker.py` lines 82-113). -/
def onSuccess (cfg : CBConfig) (b : Breaker) (now : Nat) : Breaker :=
  match getCBState b.kv with
  | CBState.HALF_OPEN =>
      let cs := b.consecutiveSuccesses + 1
      if cfg.success_threshold ≤ cs then
        transitionToClosed { b with consecutiveSuccesses := cs } now
      else
        { b with consecutiveSuccesses := cs }
  | CBState.CLOSED => { b with kv := resetFailureCount b.kv }
  | CBState.OPEN => b

/-- `CircuitBreaker._on_failure` (`circuit_breaker.py` lines 116-140).
`incrOk` is whether the Redis INCR round-trip succeeds. -/
def onFailure (cfg : CBConfig) (incrOk : Bool) (b : Breaker) (now : Nat) : Breaker :=
  match getCBState b.kv with
  | CBState.HALF_OPEN =>
      transitionToOpen { b with consecutiveSuccesses := 0 } now
  | _ =>
      let r := incrementFailureCount incrOk b.kv
      let b1 := { b with kv := r.1 }
      if cfg.failure_threshold ≤ r.2 then transitionToOpen b1 now else b1

/-- `CircuitBreaker._should_attempt_reset`: a missing last-failure stamp is
treated as "cooldown elapsed". -/
def shouldAttemptReset (cfg : CBConfig) (kv : KVState) (now : Nat) : Bool :=
  match kv.lastFailure with
  | none => true
  | some t => cfg.recovery_timeout ≤ now - t

/-- Outcome of the protected call `func()` inside `CircuitBreaker.call`. -/
inductive CallOutcome where
  | success
  | failure
  deriving Repr, DecidableEq

/-- Result of `CircuitBreaker.call`: the updated breaker, whether `func` was
invoked, and whether the call was rejected with `CircuitBreakerError`. -/
structure CBCallResult where
  breaker : Breaker
  executed : Bool
  rejected : Bool
  deriving Repr, DecidableEq

/-- `CircuitBreaker.call` (`circuit_breaker.py` lines 53-79): when the state
is OPEN either transition to HALF_OPEN (cooldown elapsed) or reject; then run
`func` and route the outcome to `_on_success` / `_on_failure` (a failing
`func` also re-raises, which the aggregator absorbs). -/
def cbCall (cfg : CBConfig) (b : Breaker) (now : Nat) (outcome : CallOutcome) : CBCallResult :=
  let st := getCBState b.kv
  if st = CBState.OPEN ∧ ¬ shouldAttemptReset cfg b.kv now then
    { breaker := b, executed := false, rejected := true }
  else
    let b1 := if st = CBState.OPEN then transitionToHalfOpen b now else b
    match outcome with
    | CallOutcome.success => { breaker := onSuccess cfg b1 now, executed := true, rejected := false }
    | CallOutcome.failure => { breaker := onFailure cfg true b1 now, executed := true, rejected := false }

/-- A breaker freshly constructed in CLOSED state with failure count 0. -/
def initClosed : Breaker :=
  { kv := { cbState := some CBState.CLOSED, failures := 0, lastFailure := none },
    consecutiveSuccesses := 0 }

/-- `k` consecutive completed failures through `CircuitBreaker.call`,
starting from `initClosed`. -/
def failRun (cfg : CBConfig) (now : Nat) : Nat → Breaker
  | 0 => initClosed
  | k + 1 => (cbCall cfg (failRun cfg now k) now CallOutcome.failure).breaker

/-- `k` consecutive completed successes through `CircuitBreaker.call`,
starting from breaker `b`. -/
def succRun (cfg : CBConfig) (now : Nat) (b : Breaker) : Nat → Breaker
  | 0 => b
  | k + 1 => (cbCall cfg (succRun cfg now b k) now CallOutcome.success).breaker

/-! ## Provider data model (`providers/base.py`) -/

/-- A Fixer.IO wire payload (`raw_response` dict), typed: `success` embeds
`response_data.get('success', False)` (a missing key reads as `false`),
`errorInfo` embeds `response_data.get('error', {}).get('info', ...)`,
`rates` embeds `response_data.get('rates', {})` as an association list, and
`timestamp` the optional Unix timestamp. -/
structure FixerPayload where
  success : Bool
  errorInfo : Option String
  rates : List (String × ℚ)
  timestamp : Option Nat
  deriving Repr, DecidableEq

/-- `ExchangeRateResponse` dataclass of `providers/base.py`.  `rate` is a
`Decimal`, embedded as an exact rational; the `raw_response` debugging field
is carried on `APICallResult` instead (the aggregator never reads it). -/
structure ExchangeRateResponse where
  base_currency : String
  target_currency : String
  rate : ℚ
  timestamp : Nat
  provider_name : String
  is_successful : Bool := true
  error_message : Option String := none
  deriving Repr, DecidableEq

/-- The `ParsedData` union of `providers/base.py`: a single rate record, a
list of rate records (`get_all_rates`), or a currency-code list
(`get_supported_currencies`). -/
inductive ParsedData where
  | rate (r : ExchangeRateResponse)
  | rates (rs : List ExchangeRateResponse)
  | currencies (cs : List String)
  deriving Repr, DecidableEq

/-- `APICallResult` dataclass of `providers/base.py`. -/
structure APICallResult where
  provider_name : String
  endpoint : String
  http_status_code : Option Nat
  response_time_ms : Nat
  was_successful : Bool
  error_message : Option String := none
  data : Option ParsedData := none
  raw_response : Option FixerPayload := none
  deriving Repr, DecidableEq

/-- The rate of a single-rate payload (`r.data.rate` in Python; the
aggregator only ever reaches this with a single-rate payload attached). -/
def APICallResult.dataRate (r : APICallResult) : ℚ :=
  match r.data with
  | some (ParsedData.rate d) => d.rate
  | _ => 0

/-- `r.data.is_successful` for a single-rate payload.  Python's
`r.data.is_successful` would raise `AttributeError` on `data=None`, but every
provider attaches `data` to a successful result, so that case is unreachable
and is embedded as `false`. -/
def APICallResult.dataOk (r : APICallResult) : Bool :=
  match r.data with
  | some (ParsedData.rate d) => d.is_successful
  | _ => false

/-- The secondary-result filter of `_aggregate_results` (line 234):
`r.was_successful and r.data and r.data.is_successful`. -/
def callOk (r : APICallResult) : Bool :=
  r.was_successful && r.dataOk

/-! ## Rate aggregator (`services/rate_aggregator.py`) -/

/-- `AggregatedRateResult` dataclass; `warnings` defaults to `[]` exactly as
`__post_init__` normalises `None` to the empty list. -/
structure AggregatedRateResult where
  base_currency : String
  target_currency : String
  rate : ℚ
  confidence_level : String
  sources_used : List String
  is_primary_used : Bool
  cached : Bool
  timestamp : Nat
  response_time_ms : Nat
  warnings : List String := []
  deriving Repr, DecidableEq

/-- The exceptions `get_exchange_rate` can raise: the `ValueError` of the
validation step ("InvalidCurrency") and the bare `Exception` of the
all-providers-failed, no-stale-row path ("NoRateAvailable"). -/
inductive AggError where
  | invalidCurrency (msg : String)
  | noRateAvailable (msg : String)
  deriving Repr, DecidableEq

/-- The dict `_check_stale_cache` builds from the most recent successful
`ExchangeRate` row: rate, fetch timestamp, the row's provider name
(`sources_used = [latest_rate.provider.name]`), and the computed age. -/
structure StaleEntry where
  rate : ℚ
  timestamp : Nat
  provider_name : String
  age_minutes : Nat
  deriving Repr, DecidableEq

/-- A fresh-cache value at `rates:BASE:TARGET`, as serialised by
`_update_cache` / `RedisManager.set_latest_rate`. -/
structure CacheEntry where
  rate : ℚ
  confidence_level : String
  sources_used : List String
  is_primary_used : Bool
  timestamp : Nat
  warnings : List String
  deriving Repr, DecidableEq

/-- The fresh KV cache, keyed by (base, target). -/
abbrev FreshCache := List ((String × String) × CacheEntry)

/-- `RedisManager.get_latest_rate` on the embedded cache. -/
def cacheLookup (c : FreshCache) (base target : String) : Option CacheEntry :=
  (c.find? (fun e => e.1 = (base, target))).map (fun e => e.2)

/-- `RedisManager.set_latest_rate`: overwrites the entry for the pair. -/
def cacheStore (c : FreshCache) (base target : String) (e : CacheEntry) : FreshCache :=
  ((base, target), e) :: c

/-- `sum(rates) / len(rates)` over exact rationals (`Decimal` division at the
default 28-digit context is exact on every value exercised here). -/
def mean (l : List ℚ) : ℚ := l.sum / (l.length : ℚ)

/-- `max([abs(rate - avg_rate) for rate in all_rates])`: the fold over 0 is
the Python `max` since every deviation is non-negative and the list is
non-empty wherever this is used. -/
def maxDev (l : List ℚ) (avg : ℚ) : ℚ :=
  (l.map (fun r => |r - avg|)).foldr max 0

/-- Scenario 1 of `_aggregate_results` (lines 237-320): the primary
succeeded.  With at least one successful secondary the code averages (or, on
deviation ≥ 1.0 with a truthy primary rate, falls back to the primary rate)
and returns with `is_primary_used=False` (line 304) and no warnings attached;
with no successful secondary it returns the primary rate with
`is_primary_used=True`. -/
def aggregatePrimary (primaryProvider : String) (pd : ExchangeRateResponse)
    (successfulResults : List APICallResult) (base target : String)
    (now rt : Nat) : AggregatedRateResult :=
  if successfulResults.isEmpty then
    { base_currency := base, target_currency := target, rate := pd.rate,
      confidence_level := "high", sources_used := [primaryProvider],
      is_primary_used := true, cached := false, timestamp := pd.timestamp,
      response_time_ms := rt }
  else
    { base_currency := base, target_currency := target,
      rate :=
        if pd.rate ≠ 0 ∧ (1 : ℚ) ≤
            maxDev (pd.rate :: successfulResults.map (fun c => c.dataRate))
              (mean (pd.rate :: successfulResults.map (fun c => c.dataRate)))
        then pd.rate
        else mean (pd.rate :: successfulResults.map (fun c => c.dataRate)),
      confidence_level := "high",
      sources_used := [primaryProvider] ++ successfulResults.map (fun c => c.provider_name),
      is_primary_used := false, cached := false, timestamp := now,
      response_time_ms := rt }

/-- Scenarios 2 and 3 of `_aggregate_results` (lines 322-391): average the
successful secondaries (medium confidence, "primary unavailable" warning), or
fall back to the stale durable row (low confidence, `cached=True`), or raise. -/
def aggregateFallback (primaryProvider : String)
    (successfulResults : List APICallResult) (base target : String)
    (stale : Option StaleEntry) (now rt : Nat) :
    Except AggError AggregatedRateResult :=
  if successfulResults.isEmpty then
    match stale with
    | some st =>
        Except.ok
          { base_currency := base, target_currency := target, rate := st.rate,
            confidence_level := "low", sources_used := [st.provider_name],
            is_primary_used := false, cached := true, timestamp := st.timestamp,
            response_time_ms := rt,
            warnings := ["All API providers unavailable",
              "Using stale cache data (age: " ++ toString st.age_minutes ++ " minutes)"] }
    | none =>
        Except.error (AggError.noRateAvailable
          ("No exchange rate data available for " ++ base ++ "->" ++ target))
  else
    Except.ok
      { base_currency := base, target_currency := target,
        rate :=
          if (successfulResults.map (fun c => c.dataRate)).length = 1
          then (successfulResults.map (fun c => c.dataRate)).headD 0
          else mean (successfulResults.map (fun c => c.dataRate)),
        confidence_level := "medium",
        sources_used := successfulResults.map (fun c => c.provider_name),
        is_primary_used := false, cached := false, timestamp := now,
        response_time_ms := rt,
        warnings := ["Primary provider " ++ primaryProvider ++ " unavailable"] }

/-- The scenario-1 guard of `_aggregate_results`:
`primary_result and primary_result.was_successful and
primary_result.data.is_successful`, returning the primary's rate record when
it holds.  `data` is always attached when `was_successful` holds, so the
unguarded dereference cannot fail; a missing or non-single-rate payload
routes to the fallback. -/
def primarySuccessData (po : Option APICallResult) : Option ExchangeRateResponse :=
  match po with
  | none => none
  | some pr =>
      match pr.data with
      | some (ParsedData.rate pd) =>
          if pr.was_successful && pd.is_successful then some pd else none
      | _ => none

/-- `RateAggregatorService._aggregate_results`: scenario 1 when the primary
succeeded, otherwise the secondary/stale fallback. -/
def aggregateResults (primaryProvider : String)
    (primary_result : Option APICallResult)
    (secondary_results : List APICallResult)
    (base target : String) (stale : Option StaleEntry) (now rt : Nat) :
    Except AggError AggregatedRateResult :=
  match primarySuccessData primary_result with
  | some pd =>
      Except.ok (aggregatePrimary primaryProvider pd
        (secondary_results.filter callOk) base target now rt)
  | none =>
      aggregateFallback primaryProvider (secondary_results.filter callOk)
        base target stale now rt

/-- `_update_cache`: write the fresh cache only for non-cached results. -/
def updateCache (c : FreshCache) (r : AggregatedRateResult) : FreshCache :=
  if r.cached then c
  else
    cacheStore c r.base_currency r.target_currency
      { rate := r.rate, confidence_level := r.confidence_level,
        sources_used := r.sources_used, is_primary_used := r.is_primary_used,
        timestamp := r.timestamp, warnings := r.warnings }

/-- The external world a single `get_exchange_rate` call observes: the
validator verdict, the fresh cache, the outcomes the circuit-breaker-guarded
provider calls would produce, the stale durable row, and the clock. -/
structure AggEnv where
  validator : String → String → Bool × Option String
  cache : FreshCache
  primaryResult : Option APICallResult
  secondaryResults : List APICallResult
  stale : Option StaleEntry
  now : Nat

/-- What a `get_exchange_rate` call returns and which effects it performed:
the result (or raised exception), the providers whose `_try_provider` fan-out
was attempted, and the fresh cache afterwards. -/
structure GetRateOutcome where
  result : Except AggError AggregatedRateResult
  providersCalled : List String
  cacheAfter : FreshCache

/-- Python's `f"...{error_msg}"` of an `Optional[str]`. -/
def optMsg : Option String → String
  | some m => m
  | none => "None"

/-- `RateAggregatorService.get_exchange_rate` (lines 56-124): validate, read
the fresh cache (a hit is returned with `cached=True` and no warnings
restored), otherwise fan out to the primary and the secondaries, aggregate,
and write the fresh cache (database call-logging has no effect on the
result and is not modelled). -/
def getExchangeRate (primaryProvider : String) (secondaryProviders : List String)
    (env : AggEnv) (base target : String) : GetRateOutcome :=
  if (env.validator base target).1 = false then
    { result := Except.error (AggError.invalidCurrency
        ("Currency validation failed: " ++ optMsg (env.validator base target).2)),
      providersCalled := [], cacheAfter := env.cache }
  else
    match cacheLookup env.cache base target with
    | some ce =>
        { result := Except.ok
            { base_currency := base, target_currency := target, rate := ce.rate,
              confidence_level := ce.confidence_level,
              sources_used := ce.sources_used,
              is_primary_used := ce.is_primary_used, cached := true,
              timestamp := ce.timestamp, response_time_ms := 0 },
          providersCalled := [], cacheAfter := env.cache }
    | none =>
        match aggregateResults primaryProvider env.primaryResult
            env.secondaryResults base target env.stale env.now 0 with
        | Except.ok r =>
            { result := Except.ok r,
              providersCalled := primaryProvider :: secondaryProviders,
              cacheAfter := updateCache env.cache r }
        | Except.error e =>
            { result := Except.error e,
              providersCalled := primaryProvider :: secondaryProviders,
              cacheAfter := env.cache }

/-- The rate of a successful aggregation result. -/
def okRate : Except AggError AggregatedRateResult → Option ℚ
  | Except.ok r => some r.rate
  | Except.error _ => none

/-- The warnings of a successful aggregation result. -/
def okWarnings : Except AggError AggregatedRateResult → Option (List String)
  | Except.ok r => some r.warnings
  | Except.error _ => none

/-- Whether the outcome is the validation `ValueError` (InvalidCurrency). -/
def isInvalidCurrency : Except AggError AggregatedRateResult → Bool
  | Except.error (AggError.invalidCurrency _) => true
  | _ => false

/-- The confidence label of a successful aggregation result. -/
def okConfidence : Except AggError AggregatedRateResult → Option String
  | Except.ok r => some r.confidence_level
  | Except.error _ => none

/-- The sources of a successful aggregation result. -/
def okSources : Except AggError AggregatedRateResult → Option (List String)
  | Except.ok r => some r.sources_used
  | Except.error _ => none

/-- The `is_primary_used` flag of a successful aggregation result. -/
def okPrimaryUsed : Except AggError AggregatedRateResult → Option Bool
  | Except.ok r => some r.is_primary_used
  | Except.error _ => none

/-! ## Provider client operations (`providers/base.py`, `providers/fixerio.py`) -/

/-- What the HTTP transport does for one GET: a response with a status code
and (typed) JSON body, a timeout, or another transport-level error. -/
inductive HttpOutcome where
  | ok (status : Nat) (body : FixerPayload)
  | timeout
  | transportError (msg : String)
  deriving Repr, DecidableEq

/-- The `httpx` exceptions `_make_request` re-raises after logging:
`httpx.TimeoutException`, `httpx.HTTPStatusError` (from `raise_for_status`),
and any other exception. -/
inductive ProviderExn where
  | timeoutExn
  | httpStatusExn (code : Nat)
  | otherExn (msg : String)
  deriving Repr, DecidableEq

/-- `APIProvider._make_request` (`providers/base.py` lines 84-140): on a 2xx
response it returns a successful `APICallResult` carrying the raw payload and
no parsed data; on timeout, a 4xx/5xx status (`raise_for_status`), or any
other failure it logs and RE-RAISES the exception (`raise e`). -/
def makeRequest (name endpoint : String) (ho : HttpOutcome) :
    Except ProviderExn APICallResult :=
  match ho with
  | HttpOutcome.ok status body =>
      if 400 ≤ status then Except.error (ProviderExn.httpStatusExn status)
      else
        Except.ok
          { provider_name := name, endpoint := endpoint,
            http_status_code := some status, response_time_ms := 0,
            was_successful := true, raw_response := some body }
  | HttpOutcome.timeout => Except.error ProviderExn.timeoutExn
  | HttpOutcome.transportError m => Except.error (ProviderExn.otherExn m)

/-- `FixerIOProvider._parse_rate_response`: payload-level errors (envelope
`success=false`, missing target) become an unsuccessful rate record with
rate 0; otherwise the target's rate with the payload timestamp (current time
when absent). -/
def fixerParseRateResponse (payload : FixerPayload) (base target : String)
    (now : Nat) : ExchangeRateResponse :=
  if payload.success = false then
    { base_currency := base, target_currency := target, rate := 0,
      timestamp := now, provider_name := "FixerIO", is_successful := false,
      error_message := some (payload.errorInfo.getD "Unknown API error") }
  else
    match payload.rates.find? (fun p => p.1 = target) with
    | none =>
        { base_currency := base, target_currency := target, rate := 0,
          timestamp := now, provider_name := "FixerIO", is_successful := false,
          error_message := some ("Target currency " ++ target ++ " not found in rates") }
    | some p =>
        { base_currency := base, target_currency := target, rate := p.2,
          timestamp := payload.timestamp.getD now, provider_name := "FixerIO",
          is_successful := true }

/-- `FixerIOProvider.get_exchange_rate` (`fixerio.py` lines 92-112):
`_make_request` raises on HTTP failure (its own comment says so); on HTTP
success the payload is parsed and payload-level errors demote the Call
Result to unsuccessful.  The `getD` default is unreachable: `_make_request`
always attaches `raw_response` to a successful result. -/
def fixerGetExchangeRate (base target : String) (ho : HttpOutcome) (now : Nat) :
    Except ProviderExn APICallResult :=
  match makeRequest "FixerIO" "latest" ho with
  | Except.error e => Except.error e
  | Except.ok res =>
      let payload := res.raw_response.getD
        { success := false, errorInfo := none, rates := [], timestamp := none }
      let parsed := fixerParseRateResponse payload base target now
      Except.ok
        { res with
          data := some (ParsedData.rate parsed),
          was_successful := parsed.is_successful,
          error_message :=
            if parsed.is_successful then res.error_message else parsed.error_message }

/-- Whether a provider call returned (rather than raised). -/
def isOkResult : Except ProviderExn APICallResult → Bool
  | Except.ok _ => true
  | Except.error _ => false

/-- The `was_successful` flag of a returned Call Result. -/
def okWasSuccessful : Except ProviderExn APICallResult → Option Bool
  | Except.ok r => some r.was_successful
  | Except.error _ => none

/-! ## Rate ingestor (`workers/rate_ingestor.py`, `config/worker.py`) -/

/-- The observable effects of `RateIngestorWorker.fetch_and_publish_for_base`:
every `aggregator.get_exchange_rate` invocation, every
`set_latest_rate` write, every `publish_rate_update`, and the per-target
success dict. -/
structure IngestResult where
  callsMade : List (String × String)
  writes : List (String × String)
  publishes : List (String × String)
  results : List (String × Bool)
  deriving Repr, DecidableEq

/-- `fetch_and_publish_for_base` (`rate_ingestor.py` lines 48-85): for each
target in `target_currencies` — with NO exclusion of the base itself — call
`get_exchange_rate`, and on success write `rates:BASE:TARGET` and publish on
`rates:broadcast`; an exception skips the write and publish for that target
only.  `getRate b t = none` models the aggregator raising. -/
def fetchAndPublishForBase (getRate : String → String → Option AggregatedRateResult)
    (base : String) (targets : List String) : IngestResult :=
  targets.foldl
    (fun acc target =>
      match getRate base target with
      | some _ =>
          { callsMade := acc.callsMade ++ [(base, target)],
            writes := acc.writes ++ [(base, target)],
            publishes := acc.publishes ++ [(base, target)],
            results := acc.results ++ [(target, true)] }
      | none =>
          { callsMade := acc.callsMade ++ [(base, target)],
            writes := acc.writes, publishes := acc.publishes,
            results := acc.results ++ [(target, false)] })
    { callsMade := [], writes := [], publishes := [], results := [] }

/-- `RateIngestorWorker.update_cycle`: all bases in one cycle (gathered
concurrently; effect lists concatenated in base order). -/
def updateCycle (getRate : String → String → Option AggregatedRateResult)
    (bases targets : List String) : IngestResult :=
  bases.foldl
    (fun acc base =>
      let r := fetchAndPublishForBase getRate base targets
      { callsMade := acc.callsMade ++ r.callsMade,
        writes := acc.writes ++ r.writes,
        publishes := acc.publishes ++ r.publishes,
        results := acc.results ++ r.results })
    { callsMade := [], writes := [], publishes := [], results := [] }

/-- Total `rates:broadcast` publishes over `K` cycles of the worker loop
(with a state-independent `getRate`, e.g. all providers mocked healthy, each
cycle repeats the same work). -/
def runCyclesPublishes (getRate : String → String → Option AggregatedRateResult)
    (bases targets : List String) : Nat → Nat
  | 0 => 0
  | k + 1 => (updateCycle getRate bases targets).publishes.length +
      runCyclesPublishes getRate bases targets k

/-- `WorkerConfig.get_total_pairs` (`config/worker.py` lines 26-34): counts
base/target combinations EXCLUDING self-pairs ("Each base pair can map to
all targets except itself"); `main()` logs this as the number of pairs to
track. -/
def getTotalPairs (bases targets : List String) : Nat :=
  (bases.map (fun base => (targets.filter (fun t => t ≠ base)).length)).sum

/-! ## Concrete environments for the claims' scenarios -/

/-- A successful single-rate provider Call Result, as `_try_provider`
receives it from a healthy provider. -/
def okCall (name : String) (q : ℚ) : APICallResult :=
  { provider_name := name, endpoint := "get_exchange_rate",
    http_status_code := some 200, response_time_ms := 0,
    was_successful := true,
    data := some (ParsedData.rate
      { base_currency := "USD", target_currency := "EUR", rate := q,
        timestamp := 0, provider_name := name }) }

/-- A validator that accepts every pair. -/
def validatorOk : String → String → Bool × Option String := fun _ _ => (true, none)

/-- Spec scenario "Three-way average": primary 1.20, secondaries 1.22 and
1.18, empty cache, all within the deviation bound. -/
def envThreeWay : AggEnv :=
  { validator := validatorOk, cache := [],
    primaryResult := some (okCall "FixerIO" (6/5)),
    secondaryResults := [okCall "CurrencyAPI" (61/50), okCall "OpenExchange" (59/50)],
    stale := none, now := 0 }

/-- The primary rate record of `envThreeWay` (as parsed from FixerIO). -/
def pdThree : ExchangeRateResponse :=
  { base_currency := "USD", target_currency := "EUR", rate := 6/5,
    timestamp := 0, provider_name := "FixerIO" }

/-- The successful secondary Call Results of `envThreeWay`. -/
def scThree : List APICallResult :=
  [okCall "CurrencyAPI" (61/50), okCall "OpenExchange" (59/50)]

/-- High-deviation scenario: primary 1.20, one secondary at 4.00, so the
maximum deviation from the mean 2.60 is 1.40 ≥ 1.0. -/
def envHighDev : AggEnv :=
  { validator := validatorOk, cache := [],
    primaryResult := some (okCall "FixerIO" (6/5)),
    secondaryResults := [okCall "CurrencyAPI" 4],
    stale := none, now := 0 }

/-- The primary rate record of `envHighDev`. -/
def pdHigh : ExchangeRateResponse :=
  { base_currency := "USD", target_currency := "EUR", rate := 6/5,
    timestamp := 0, provider_name := "FixerIO" }

/-- The successful secondary Call Results of `envHighDev`. -/
def scHigh : List APICallResult := [okCall "CurrencyAPI" 4]

/-- A provider payload carrying a non-positive rate in a successful
envelope: primary-only success with rate 0. -/
def envZeroRate : AggEnv :=
  { validator := validatorOk, cache := [],
    primaryResult := some (okCall "FixerIO" 0),
    secondaryResults := [], stale := none, now := 0 }

/-- Primary-only success with rate 0.85. -/
def envPrimaryOnly : AggEnv :=
  { validator := validatorOk, cache := [],
    primaryResult := some (okCall "FixerIO" (17/20)),
    secondaryResults := [], stale := none, now := 0 }

/-- A validator rejecting the pair, as in spec scenario "Invalid pair". -/
def envInvalid : AggEnv :=
  { validator := fun _ _ => (false, some "Unsupported currency(ies): XXX"),
    cache := [((("USD" : String), ("EUR" : String)),
      { rate := 1, confidence_level := "high", sources_used := ["FixerIO"],
        is_primary_used := true, timestamp := 0, warnings := [] })],
    primaryResult := some (okCall "FixerIO" (6/5)),
    secondaryResults := [], stale := none, now := 0 }

/-- A warm fresh cache for the pair USD→EUR. -/
def envCacheHit : AggEnv :=
  { validator := validatorOk,
    cache := [((("USD" : String), ("EUR" : String)),
      { rate := 17/20, confidence_level := "high", sources_used := ["FixerIO"],
        is_primary_used := true, timestamp := 0, warnings := [] })],
    primaryResult := some (okCall "FixerIO" (6/5)),
    secondaryResults := [], stale := none, now := 0 }

/-- A Fixer.IO payload whose envelope signals a logical error (e.g. invalid
API key) on an HTTP 200 response. -/
def payloadInvalidKey : FixerPayload :=
  { success := false, errorInfo := some "You have not supplied an API Access Key",
    rates := [], timestamp := none }

/-- All providers mocked healthy for the ingestor. -/
def healthyRate : String → String → Option AggregatedRateResult := fun base target =>
  some
    { base_currency := base, target_currency := target, rate := 1,
      confidence_level := "high", sources_used := ["FixerIO"],
      is_primary_used := true, cached := false, timestamp := 0,
      response_time_ms := 0 }

/-! ## Claim theorems -/

lemma failRun_lt (cfg : CBConfig) (now : Nat) :
    ∀ k, k < cfg.failure_threshold →
      failRun cfg now k =
        { kv := { cbState := some CBState.CLOSED, failures := k, lastFailure := none },
          consecutiveSuccesses := 0 } := by
  intro k
  induction k with
  | zero => intro _; rfl
  | succ k ih =>
      intro hk
      have hk' : k < cfg.failure_threshold := Nat.lt_of_succ_lt hk
      have hlt : ¬ cfg.failure_threshold ≤ k + 1 := Nat.not_le_of_lt hk
      simp only [failRun, ih hk', cbCall, getCBState, Option.getD, onFailure,
        incrementFailureCount, shouldAttemptReset]
      simp [hlt]

lemma failRun_open (cfg : CBConfig) (now : Nat) (hN : 0 < cfg.failure_threshold) :
    failRun cfg now cfg.failure_threshold =
      { kv := { cbState := some CBState.OPEN, failures := cfg.failure_threshold,
                lastFailure := some now },
        consecutiveSuccesses := 0 } := by
  obtain ⟨n, hn⟩ : ∃ n, cfg.failure_threshold = n + 1 :=
    ⟨cfg.failure_threshold - 1, (Nat.succ_pred_eq_of_pos hN).symm⟩
  have hlt : n < cfg.failure_threshold := by omega
  have h1 : failRun cfg now cfg.failure_threshold =
      (cbCall cfg (failRun cfg now n) now CallOutcome.failure).breaker := by
    rw [hn]; rfl
  rw [h1, failRun_lt cfg now n hlt]
  have hle : cfg.failure_threshold ≤ n + 1 := by omega
  simp only [cbCall, getCBState, Option.getD, onFailure, incrementFailureCount,
    shouldAttemptReset, transitionToOpen, setCBStateKV]
  simp [hle, hn]

/-- C5: starting CLOSED with failure count 0, a run of consecutive failures
leaves the breaker CLOSED with count `k` for every `k < failure_threshold`,
transitions it to OPEN exactly on the `failure_threshold`-th failure, and a
completed success while CLOSED resets the failure count to 0. -/
theorem cb_closed_failure_run (cfg : CBConfig) (now k : Nat) (b : Breaker)
    (hN : 0 < cfg.failure_threshold) :
    (k < cfg.failure_threshold →
        getCBState (failRun cfg now k).kv = CBState.CLOSED ∧
        (failRun cfg now k).kv.failures = k) ∧
    getCBState (failRun cfg now cfg.failure_threshold).kv = CBState.OPEN ∧
    (getCBState b.kv = CBState.CLOSED →
        getCBState (onSuccess cfg b now).kv = CBState.CLOSED ∧
        (onSuccess cfg b now).kv.failures = 0) := by
  refine ⟨?_, ?_, ?_⟩
  · intro hk
    rw [failRun_lt cfg now k hk]
    exact ⟨rfl, rfl⟩
  · rw [failRun_open cfg now hN]
    rfl
  · intro hb
    have h1 : onSuccess cfg b now = { b with kv := resetFailureCount b.kv } := by
      simp [onSuccess, hb]
    rw [h1]
    exact ⟨hb, rfl⟩

/-- Witness for `cb_closed_failure_run` at the default configuration
(threshold 5): three failures leave the breaker CLOSED with count 3, the
fifth opens it, and a success while CLOSED resets the count. -/
theorem cb_closed_failure_run_witness :
    getCBState (failRun ⟨5, 3600, 2⟩ 0 3).kv = CBState.CLOSED ∧
    (failRun ⟨5, 3600, 2⟩ 0 3).kv.failures = 3 ∧
    getCBState (failRun ⟨5, 3600, 2⟩ 0 5).kv = CBState.OPEN ∧
    (onSuccess ⟨5, 3600, 2⟩ initClosed 0).kv.failures = 0 := by
  have h := cb_closed_failure_run ⟨5, 3600, 2⟩ 0 3 initClosed (by decide)
  exact ⟨(h.1 (by decide)).1, (h.1 (by decide)).2, h.2.1, (h.2.2 (by decide)).2⟩

lemma succRun_lt (cfg : CBConfig) (now : Nat) (b : Breaker)
    (hb : getCBState b.kv = CBState.HALF_OPEN) (hcs : b.consecutiveSuccesses = 0) :
    ∀ k, k < cfg.success_threshold →
      succRun cfg now b k = { b with consecutiveSuccesses := k } := by
  intro k
  induction k with
  | zero =>
      intro _
      cases b with
      | mk kv cs => simp only at hcs; simp [succRun, hcs]
  | succ k ih =>
      intro hk
      have hk' : k < cfg.success_threshold := Nat.lt_of_succ_lt hk
      have hle : ¬ cfg.success_threshold ≤ k + 1 := Nat.not_le_of_lt hk
      have hst : getCBState ({ b with consecutiveSuccesses := k } : Breaker).kv
          = CBState.HALF_OPEN := hb
      simp only [succRun, ih hk', cbCall, hst, onSuccess]
      simp [hle, hb]

lemma succRun_closes (cfg : CBConfig) (now : Nat) (b : Breaker)
    (hb : getCBState b.kv = CBState.HALF_OPEN) (hcs : b.consecutiveSuccesses = 0)
    (hs : 0 < cfg.success_threshold) :
    succRun cfg now b cfg.success_threshold =
      transitionToClosed { b with consecutiveSuccesses := cfg.success_threshold } now := by
  obtain ⟨n, hn⟩ : ∃ n, cfg.success_threshold = n + 1 :=
    ⟨cfg.success_threshold - 1, (Nat.succ_pred_eq_of_pos hs).symm⟩
  have hlt : n < cfg.success_threshold := by omega
  have h1 : succRun cfg now b cfg.success_threshold =
      (cbCall cfg (succRun cfg now b n) now CallOutcome.success).breaker := by
    rw [hn]; rfl
  rw [h1, succRun_lt cfg now b hb hcs n hlt]
  have hle : cfg.success_threshold ≤ n + 1 := by omega
  simp only [cbCall, hb, onSuccess]
  simp [hle, hb, hn]

/-- C6: from HALF_OPEN with the in-process success counter at
0, every run of `k < success_threshold` completed successes leaves the
breaker HALF_OPEN (so `success_threshold − 1` successes do); the
`success_threshold`-th success transitions it to CLOSED and resets the
failure count; and a single failure while HALF_OPEN transitions the breaker
to OPEN regardless of its current success counter. -/
theorem cb_half_open_recovery (cfg : CBConfig) (now k : Nat) (b b2 : Breaker)
    (hb : getCBState b.kv = CBState.HALF_OPEN) (hcs : b.consecutiveSuccesses = 0)
    (hs : 0 < cfg.success_threshold)
    (hb2 : getCBState b2.kv = CBState.HALF_OPEN) :
    (k < cfg.success_threshold →
        getCBState (succRun cfg now b k).kv = CBState.HALF_OPEN ∧
        (succRun cfg now b k).consecutiveSuccesses = k) ∧
    (getCBState (succRun cfg now b cfg.success_threshold).kv = CBState.CLOSED ∧
        (succRun cfg now b cfg.success_threshold).kv.failures = 0) ∧
    getCBState ((cbCall cfg b2 now CallOutcome.failure).breaker).kv = CBState.OPEN := by
  refine ⟨?_, ?_, ?_⟩
  · intro hk
    rw [succRun_lt cfg now b hb hcs k hk]
    exact ⟨hb, rfl⟩
  · rw [succRun_closes cfg now b hb hcs hs]
    exact ⟨rfl, rfl⟩
  · have hb2' : b2.kv.cbState.getD CBState.CLOSED = CBState.HALF_OPEN := hb2
    simp [cbCall, getCBState, hb2', onFailure, transitionToOpen, setCBStateKV]

/-- Witness for `cb_half_open_recovery` with success_threshold 2: one success
keeps a fresh HALF_OPEN breaker HALF_OPEN, the second closes it, and a
failure from HALF_OPEN opens it. -/
theorem cb_half_open_recovery_witness :
    getCBState (succRun ⟨5, 3600, 2⟩ 0 (transitionToHalfOpen initClosed 0) 1).kv
      = CBState.HALF_OPEN ∧
    getCBState (succRun ⟨5, 3600, 2⟩ 0 (transitionToHalfOpen initClosed 0) 2).kv
      = CBState.CLOSED ∧
    getCBState ((cbCall ⟨5, 3600, 2⟩ (transitionToHalfOpen initClosed 0) 0
        CallOutcome.failure).breaker).kv = CBState.OPEN := by
  have h := cb_half_open_recovery ⟨5, 3600, 2⟩ 0 1
    (transitionToHalfOpen initClosed 0) (transitionToHalfOpen initClosed 0)
    (by decide) (by decide) (by decide) (by decide)
  exact ⟨(h.1 (by decide)).1, h.2.1.1, h.2.2⟩

/-- C9: when the Redis INCR for a provider's failure count errors,
`increment_failure_count` returns 0, so `_on_failure` observes a count below
any positive `failure_threshold` and leaves a CLOSED breaker completely
unchanged: during such a KV outage provider failures cannot open the
circuit. -/
theorem cb_kv_outage_no_open (cfg : CBConfig) (b : Breaker) (now : Nat)
    (hb : getCBState b.kv = CBState.CLOSED) (hN : 0 < cfg.failure_threshold) :
    (incrementFailureCount false b.kv).2 = 0 ∧
    onFailure cfg false b now = b := by
  constructor
  · rfl
  · have hle : ¬ cfg.failure_threshold ≤ 0 := by omega
    simp only [onFailure, hb, incrementFailureCount]
    simp [hle]

/-- Witness for `cb_kv_outage_no_open`: a CLOSED breaker with 4 recorded
failures (one below the default threshold 5) stays exactly as it is when a
failure is recorded while the INCR errors. -/
theorem cb_kv_outage_no_open_witness :
    onFailure ⟨5, 3600, 2⟩ false
      { kv := { cbState := some CBState.CLOSED, failures := 4, lastFailure := none },
        consecutiveSuccesses := 0 } 7 =
      { kv := { cbState := some CBState.CLOSED, failures := 4, lastFailure := none },
        consecutiveSuccesses := 0 } :=
  (cb_kv_outage_no_open ⟨5, 3600, 2⟩
    { kv := { cbState := some CBState.CLOSED, failures := 4, lastFailure := none },
      consecutiveSuccesses := 0 } 7 (by decide) (by decide)).2

lemma mean_pos {l : List ℚ} (hne : l ≠ []) (h : ∀ x ∈ l, 0 < x) : 0 < mean l := by
  have hs : 0 < l.sum := List.sum_pos l h hne
  have hl : 0 < (l.length : ℚ) := by exact_mod_cast List.length_pos.mpr hne
  exact div_pos hs hl

lemma headD_mem {l : List ℚ} (hne : l ≠ []) : l.headD 0 ∈ l := by
  cases l with
  | nil => exact absurd rfl hne
  | cons a t => simp

lemma foldr_max_lt {l : List ℚ} {b : ℚ} (hb : 0 < b) (h : ∀ x ∈ l, x < b) :
    l.foldr max 0 < b := by
  induction l with
  | nil => simpa using hb
  | cons a t ih =>
      simp only [List.foldr]
      exact max_lt (h a (by simp)) (ih (fun x hx => h x (by simp [hx])))

lemma le_foldr_max {l : List ℚ} {x : ℚ} (hx : x ∈ l) : x ≤ l.foldr max 0 := by
  induction l with
  | nil => cases hx
  | cons a t ih =>
      rcases List.mem_cons.mp hx with h | h
      · subst h; exact le_max_left _ _
      · exact le_trans (ih h) (le_max_right _ _)

lemma aggregatePrimary_pos (pp : String) (pd : ExchangeRateResponse)
    (sr : List APICallResult) (base target : String) (now rt : Nat)
    (hpd : 0 < pd.rate) (hsr : ∀ c ∈ sr, 0 < c.dataRate) :
    0 < (aggregatePrimary pp pd sr base target now rt).rate := by
  unfold aggregatePrimary
  by_cases he : sr.isEmpty = true
  · rw [if_pos he]
    exact hpd
  · rw [if_neg he]
    have hall : ∀ x ∈ pd.rate :: sr.map (fun c => c.dataRate), 0 < x := by
      intro x hx
      rcases List.mem_cons.mp hx with h | h
      · exact h ▸ hpd
      · rcases List.mem_map.mp h with ⟨c, hc, rfl⟩
        exact hsr c hc
    have hm : 0 < mean (pd.rate :: sr.map (fun c => c.dataRate)) :=
      mean_pos (by simp) hall
    by_cases hg : pd.rate ≠ 0 ∧ (1 : ℚ) ≤
        maxDev (pd.rate :: sr.map (fun c => c.dataRate))
          (mean (pd.rate :: sr.map (fun c => c.dataRate)))
    · rw [if_pos hg]
      exact hpd
    · rw [if_neg hg]
      exact hm

lemma aggregateFallback_pos (pp : String) (sr : List APICallResult)
    (base target : String) (stale : Option StaleEntry) (now rt : Nat)
    (hsr : ∀ c ∈ sr, 0 < c.dataRate)
    (hstale : ∀ st, stale = some st → 0 < st.rate) :
    ∀ r, aggregateFallback pp sr base target stale now rt = Except.ok r → 0 < r.rate := by
  intro r hr
  unfold aggregateFallback at hr
  by_cases he : sr.isEmpty = true
  · rw [if_pos he] at hr
    cases hst : stale with
    | none => rw [hst] at hr; simp at hr
    | some st =>
        rw [hst] at hr
        have hr2 : Except.ok
            ({ base_currency := base, target_currency := target, rate := st.rate,
               confidence_level := "low", sources_used := [st.provider_name],
               is_primary_used := false, cached := true, timestamp := st.timestamp,
               response_time_ms := rt,
               warnings := ["All API providers unavailable",
                 "Using stale cache data (age: " ++ toString st.age_minutes ++
                   " minutes)"] } : AggregatedRateResult) = Except.ok r := hr
        obtain rfl := Except.ok.inj hr2
        exact hstale st hst
  · rw [if_neg he] at hr
    have hne : sr.map (fun c => c.dataRate) ≠ [] := by
      simp only [ne_eq, List.map_eq_nil_iff]
      intro h0
      exact he (by simp [h0, List.isEmpty_nil])
    have hall : ∀ x ∈ sr.map (fun c => c.dataRate), 0 < x := by
      intro x hx
      rcases List.mem_map.mp hx with ⟨c, hc, rfl⟩
      exact hsr c hc
    have hr2 := Except.ok.inj hr
    subst hr2
    by_cases hlen : (sr.map (fun c => c.dataRate)).length = 1
    · rw [if_pos hlen]
      exact hall _ (headD_mem hne)
    · rw [if_neg hlen]
      exact mean_pos hne hall

lemma primarySuccessData_some_of {pr : APICallResult} {pd : ExchangeRateResponse}
    (hpd : pr.data = some (ParsedData.rate pd)) (hws : pr.was_successful = true)
    (hds : pd.is_successful = true) :
    primarySuccessData (some pr) = some pd := by
  have h : primarySuccessData (some pr) =
      (match pr.data with
        | some (ParsedData.rate pd) =>
            if pr.was_successful && pd.is_successful then some pd else none
        | _ => none) := rfl
  rw [h, hpd]
  simp [hws, hds]

lemma primarySuccessData_pos (po : Option APICallResult)
    (hp : ∀ pr, po = some pr → callOk pr = true → 0 < pr.dataRate)
    (pd : ExchangeRateResponse) (h : primarySuccessData po = some pd) :
    0 < pd.rate := by
  cases po with
  | none => simp [primarySuccessData] at h
  | some pr =>
      have h1 : (match pr.data with
          | some (ParsedData.rate pd) =>
              if pr.was_successful && pd.is_successful then some pd else none
          | _ => none) = some pd := h
      cases hd : pr.data with
      | none => rw [hd] at h1; simp at h1
      | some pdata =>
          cases pdata with
          | rates rs => rw [hd] at h1; simp at h1
          | currencies cs => rw [hd] at h1; simp at h1
          | rate pd0 =>
              rw [hd] at h1
              have h2 : (if pr.was_successful && pd0.is_successful then some pd0 else none)
                  = some pd := h1
              by_cases hg : (pr.was_successful && pd0.is_successful) = true
              · rw [if_pos hg] at h2
                obtain rfl := Option.some.inj h2
                have hco : callOk pr = true := by
                  simp only [callOk, APICallResult.dataOk, hd]
                  exact hg
                have hrate : pr.dataRate = pd0.rate := by
                  simp [APICallResult.dataRate, hd]
                exact hrate ▸ hp pr rfl hco
              · rw [if_neg hg] at h2
                simp at h2

lemma aggregateResults_pos (pp : String) (po : Option APICallResult)
    (srs : List APICallResult) (base target : String) (stale : Option StaleEntry)
    (now rt : Nat)
    (hp : ∀ pr, po = some pr → callOk pr = true → 0 < pr.dataRate)
    (hs : ∀ c ∈ srs, callOk c = true → 0 < c.dataRate)
    (hstale : ∀ st, stale = some st → 0 < st.rate) :
    ∀ r, aggregateResults pp po srs base target stale now rt = Except.ok r → 0 < r.rate := by
  intro r hr
  have hfil : ∀ c ∈ srs.filter callOk, 0 < c.dataRate := by
    intro c hc
    have h := List.mem_filter.mp hc
    exact hs c h.1 h.2
  unfold aggregateResults at hr
  cases hps : primarySuccessData po with
  | none =>
      rw [hps] at hr
      exact aggregateFallback_pos pp _ base target stale now rt hfil hstale r hr
  | some pd =>
      rw [hps] at hr
      have hr2 : Except.ok (aggregatePrimary pp pd (srs.filter callOk) base target now rt)
          = Except.ok r := hr
      obtain rfl := Except.ok.inj hr2
      exact aggregatePrimary_pos pp pd _ base target now rt
        (primarySuccessData_pos po hp pd hps) hfil

lemma cacheLookup_mem {c : FreshCache} {base target : String} {ce : CacheEntry}
    (h : cacheLookup c base target = some ce) : ∃ k, (k, ce) ∈ c := by
  unfold cacheLookup at h
  cases hf : c.find? (fun e => e.1 = (base, target)) with
  | none => rw [hf] at h; simp at h
  | some x =>
      rw [hf] at h
      have h2 : some x.2 = some ce := h
      have h3 := Option.some.inj h2
      refine ⟨x.1, ?_⟩
      have h4 : (x.1, ce) = x := by
        obtain ⟨a, b⟩ := x
        have h5 : b = ce := h3
        rw [← h5]
      rw [h4]
      exact List.mem_of_find?_eq_some hf

/-- C4 (corrected): the aggregator never checks rate positivity, but provided
every successful provider rate, every fresh-cache rate, and any stale durable
row is positive, every successfully returned Aggregated Rate is positive. -/
theorem agg_rate_positive (pp : String) (sp : List String) (env : AggEnv)
    (base target : String) (r : AggregatedRateResult)
    (hcache : ∀ e ∈ env.cache, 0 < e.2.rate)
    (hp : ∀ pr, env.primaryResult = some pr → callOk pr = true → 0 < pr.dataRate)
    (hs : ∀ c ∈ env.secondaryResults, callOk c = true → 0 < c.dataRate)
    (hstale : ∀ st, env.stale = some st → 0 < st.rate)
    (hr : (getExchangeRate pp sp env base target).result = Except.ok r) :
    0 < r.rate := by
  unfold getExchangeRate at hr
  by_cases hv : (env.validator base target).1 = false
  · rw [if_pos hv] at hr
    simp at hr
  · rw [if_neg hv] at hr
    cases hcl : cacheLookup env.cache base target with
    | some ce =>
        rw [hcl] at hr
        have hr2 : Except.ok
            ({ base_currency := base, target_currency := target, rate := ce.rate,
               confidence_level := ce.confidence_level,
               sources_used := ce.sources_used,
               is_primary_used := ce.is_primary_used, cached := true,
               timestamp := ce.timestamp, response_time_ms := 0 } :
              AggregatedRateResult) = Except.ok r := hr
        obtain rfl := Except.ok.inj hr2
        obtain ⟨k, hk⟩ := cacheLookup_mem hcl
        exact hcache (k, ce) hk
    | none =>
        rw [hcl] at hr
        cases hagg : aggregateResults pp env.primaryResult env.secondaryResults
            base target env.stale env.now 0 with
        | error e => rw [hagg] at hr; simp at hr
        | ok r2 =>
            rw [hagg] at hr
            have hr2 : Except.ok r2 = Except.ok r := hr
            obtain rfl := Except.ok.inj hr2
            exact aggregateResults_pos pp env.primaryResult env.secondaryResults
              base target env.stale env.now 0 hp hs hstale r2 hagg

/-- C4 counterexample: a successful Fixer.IO envelope carrying rate 0 for the
target makes `get_exchange_rate` return an Aggregated Rate with rate 0 — the
claim "no Aggregated Rate is ever returned with rate ≤ 0" fails on such
provider responses. -/
theorem agg_zero_rate_returned_cex :
    okRate (getExchangeRate "FixerIO" [] envZeroRate "USD" "EUR").result = some 0 := rfl

/-- Witness for `agg_rate_positive`: the primary-only scenario with rate 0.85
returns rate 17/20, which the theorem proves positive. -/
theorem agg_rate_positive_witness :
    okRate (getExchangeRate "FixerIO" [] envPrimaryOnly "USD" "EUR").result = some (17/20) ∧
    (0 : ℚ) < 17/20 := by
  constructor
  · rfl
  · exact agg_rate_positive "FixerIO" [] envPrimaryOnly "USD" "EUR"
      { base_currency := "USD", target_currency := "EUR", rate := 17/20,
        confidence_level := "high", sources_used := ["FixerIO"],
        is_primary_used := true, cached := false, timestamp := 0,
        response_time_ms := 0, warnings := [] }
      (by intro e he; simp [envPrimaryOnly] at he)
      (by
        intro pr h hok
        have h2 : okCall "FixerIO" (17/20) = pr := Option.some.inj h
        rw [← h2]
        show (0 : ℚ) < 17/20
        norm_num)
      (by intro c hc; simp [envPrimaryOnly] at hc)
      (by intro st h; simp [envPrimaryOnly] at h)
      rfl

/-- C7: when the validator rejects the pair, `get_exchange_rate` raises the
validation `ValueError` (the InvalidCurrency kind), no provider fan-out is
attempted, and the fresh cache is untouched. -/
theorem agg_invalid_currency_no_effects (pp : String) (sp : List String)
    (env : AggEnv) (base target : String)
    (hv : (env.validator base target).1 = false) :
    isInvalidCurrency (getExchangeRate pp sp env base target).result = true ∧
    (getExchangeRate pp sp env base target).providersCalled = [] ∧
    (getExchangeRate pp sp env base target).cacheAfter = env.cache := by
  unfold getExchangeRate
  rw [if_pos hv]
  exact ⟨rfl, rfl, rfl⟩

/-- Witness for `agg_invalid_currency_no_effects` on the spec's "Invalid
pair" scenario (validator rejects with "Unsupported currency(ies): XXX"). -/
theorem agg_invalid_currency_no_effects_witness :
    isInvalidCurrency (getExchangeRate "FixerIO" ["CurrencyAPI"] envInvalid "USD" "XXX").result
      = true ∧
    (getExchangeRate "FixerIO" ["CurrencyAPI"] envInvalid "USD" "XXX").providersCalled = [] ∧
    (getExchangeRate "FixerIO" ["CurrencyAPI"] envInvalid "USD" "XXX").cacheAfter
      = envInvalid.cache :=
  agg_invalid_currency_no_effects "FixerIO" ["CurrencyAPI"] envInvalid "USD" "XXX" rfl

/-- C10: `_update_cache` skips results with `cached=True`, and the fresh
cache-hit return path performs no write either, so whenever the result of
`get_exchange_rate` reports `cached = true` the fresh cache is exactly what
it was before the call. -/
theorem agg_cached_result_no_cache_write (pp : String) (sp : List String)
    (env : AggEnv) (base target : String) (r : AggregatedRateResult)
    (hr : (getExchangeRate pp sp env base target).result = Except.ok r)
    (hcached : r.cached = true) :
    (getExchangeRate pp sp env base target).cacheAfter = env.cache := by
  unfold getExchangeRate at hr ⊢
  by_cases hv : (env.validator base target).1 = false
  · rw [if_pos hv]
  · rw [if_neg hv] at hr ⊢
    cases hcl : cacheLookup env.cache base target with
    | some ce => rfl
    | none =>
        rw [hcl] at hr
        cases hagg : aggregateResults pp env.primaryResult env.secondaryResults
            base target env.stale env.now 0 with
        | error e => rfl
        | ok r2 =>
            rw [hagg] at hr
            have hr2 : Except.ok r2 = Except.ok r := hr
            obtain rfl := Except.ok.inj hr2
            show updateCache env.cache r2 = env.cache
            simp [updateCache, hcached]

/-- Witness for `agg_cached_result_no_cache_write`: a fresh-cache hit returns
`cached = true` and leaves the cache unchanged. -/
theorem agg_cached_result_no_cache_write_witness :
    (getExchangeRate "FixerIO" [] envCacheHit "USD" "EUR").cacheAfter = envCacheHit.cache :=
  agg_cached_result_no_cache_write "FixerIO" [] envCacheHit "USD" "EUR"
    { base_currency := "USD", target_currency := "EUR", rate := 17/20,
      confidence_level := "high", sources_used := ["FixerIO"],
      is_primary_used := true, cached := true, timestamp := 0,
      response_time_ms := 0, warnings := [] }
    rfl rfl

/-- C1 (code bug, evaluated at the spec's "Three-way average" scenario):
primary 1.20 with secondaries 1.22 and 1.18, all within the deviation bound,
returns the arithmetic mean 6/5, confidence "high", sources primary followed
by both secondaries, and no warnings — but `is_primary_used = false`
(`rate_aggregator.py` line 304), although the log statement in the same
branch reports `is_primary_used=True` and the batch twin
`_aggregate_single_pair` sets it to `True` on the identical path. -/
theorem agg_three_way_average_eval :
    okRate (getExchangeRate "FixerIO" ["CurrencyAPI", "OpenExchange"]
        envThreeWay "USD" "EUR").result = some (mean [(6 : ℚ)/5, 61/50, 59/50]) ∧
    mean [(6 : ℚ)/5, 61/50, 59/50] = 6/5 ∧
    okConfidence (getExchangeRate "FixerIO" ["CurrencyAPI", "OpenExchange"]
        envThreeWay "USD" "EUR").result = some "high" ∧
    okSources (getExchangeRate "FixerIO" ["CurrencyAPI", "OpenExchange"]
        envThreeWay "USD" "EUR").result = some ["FixerIO", "CurrencyAPI", "OpenExchange"] ∧
    okPrimaryUsed (getExchangeRate "FixerIO" ["CurrencyAPI", "OpenExchange"]
        envThreeWay "USD" "EUR").result = some false ∧
    okWarnings (getExchangeRate "FixerIO" ["CurrencyAPI", "OpenExchange"]
        envThreeWay "USD" "EUR").result = some [] := by
  have hm : mean [(6 : ℚ)/5, 61/50, 59/50] = 6/5 := by
    unfold mean
    simp only [List.sum_cons, List.sum_nil, List.length_cons, List.length_nil]
    norm_num
  have hdevlt : maxDev [(6 : ℚ)/5, 61/50, 59/50] (mean [(6 : ℚ)/5, 61/50, 59/50]) < 1 := by
    rw [hm]
    unfold maxDev
    apply foldr_max_lt one_pos
    intro y hy
    simp only [List.map_cons, List.map_nil, List.mem_cons, List.not_mem_nil,
      or_false] at hy
    rcases hy with rfl | rfl | rfl
    · rw [abs_sub_lt_iff]; constructor <;> norm_num
    · rw [abs_sub_lt_iff]; constructor <;> norm_num
    · rw [abs_sub_lt_iff]; constructor <;> norm_num
  have hcond : ¬ (pdThree.rate ≠ 0 ∧ (1 : ℚ) ≤
      maxDev (pdThree.rate :: scThree.map (fun c => c.dataRate))
        (mean (pdThree.rate :: scThree.map (fun c => c.dataRate)))) := by
    intro h
    have h2 := h.2
    have hsame : maxDev (pdThree.rate :: scThree.map (fun c => c.dataRate))
        (mean (pdThree.rate :: scThree.map (fun c => c.dataRate))) =
        maxDev [(6 : ℚ)/5, 61/50, 59/50] (mean [(6 : ℚ)/5, 61/50, 59/50]) := rfl
    rw [hsame] at h2
    exact absurd h2 (not_le.mpr hdevlt)
  have hag0 : (getExchangeRate "FixerIO" ["CurrencyAPI", "OpenExchange"]
      envThreeWay "USD" "EUR").result =
      Except.ok (aggregatePrimary "FixerIO" pdThree scThree "USD" "EUR" 0 0) := rfl
  have hap : aggregatePrimary "FixerIO" pdThree scThree "USD" "EUR" 0 0 =
      { base_currency := "USD", target_currency := "EUR",
        rate := mean (pdThree.rate :: scThree.map (fun c => c.dataRate)),
        confidence_level := "high",
        sources_used := ["FixerIO"] ++ scThree.map (fun c => c.provider_name),
        is_primary_used := false, cached := false, timestamp := 0,
        response_time_ms := 0, warnings := [] } := by
    unfold aggregatePrimary
    rw [if_neg (by decide : ¬ (scThree.isEmpty = true)), if_neg hcond]
  rw [hag0, hap]
  exact ⟨rfl, hm, rfl, rfl, rfl, rfl⟩

/-- C2 counterexample: primary 1.20 with a secondary at 4.00 (max deviation
1.40 ≥ 1.0) does return the primary's rate, but the RETURNED warnings list
is empty — the "high deviation" warning goes only to the logger, so the
claim that the returned result's warnings list contains it is false. -/
theorem agg_high_deviation_no_warning_cex :
    okRate (getExchangeRate "FixerIO" ["CurrencyAPI"] envHighDev "USD" "EUR").result
      = some ((6 : ℚ)/5) ∧
    okWarnings (getExchangeRate "FixerIO" ["CurrencyAPI"] envHighDev "USD" "EUR").result
      = some [] := by
  have hm : mean [(6 : ℚ)/5, 4] = 13/5 := by
    unfold mean
    simp only [List.sum_cons, List.sum_nil, List.length_cons, List.length_nil]
    norm_num
  have hdev : (1 : ℚ) ≤ maxDev (pdHigh.rate :: scHigh.map (fun c => c.dataRate))
      (mean (pdHigh.rate :: scHigh.map (fun c => c.dataRate))) := by
    have hsame : maxDev (pdHigh.rate :: scHigh.map (fun c => c.dataRate))
        (mean (pdHigh.rate :: scHigh.map (fun c => c.dataRate))) =
        maxDev [(6 : ℚ)/5, 4] (mean [(6 : ℚ)/5, 4]) := rfl
    rw [hsame, hm]
    unfold maxDev
    refine le_trans ?_ (le_foldr_max (List.mem_map_of_mem _ (by simp : (4 : ℚ) ∈ [(6 : ℚ)/5, 4])))
    rw [abs_of_nonneg (by norm_num : (0 : ℚ) ≤ 4 - 13/5)]
    norm_num
  have hcond : pdHigh.rate ≠ 0 ∧ (1 : ℚ) ≤
      maxDev (pdHigh.rate :: scHigh.map (fun c => c.dataRate))
        (mean (pdHigh.rate :: scHigh.map (fun c => c.dataRate))) := by
    refine ⟨?_, hdev⟩
    show (6 : ℚ)/5 ≠ 0
    norm_num
  have hag0 : (getExchangeRate "FixerIO" ["CurrencyAPI"] envHighDev "USD" "EUR").result =
      Except.ok (aggregatePrimary "FixerIO" pdHigh scHigh "USD" "EUR" 0 0) := rfl
  have hap : aggregatePrimary "FixerIO" pdHigh scHigh "USD" "EUR" 0 0 =
      { base_currency := "USD", target_currency := "EUR", rate := pdHigh.rate,
        confidence_level := "high",
        sources_used := ["FixerIO"] ++ scHigh.map (fun c => c.provider_name),
        is_primary_used := false, cached := false, timestamp := 0,
        response_time_ms := 0, warnings := [] } := by
    unfold aggregatePrimary
    rw [if_neg (by decide : ¬ (scHigh.isEmpty = true)), if_pos hcond]
  rw [hag0, hap]
  exact ⟨rfl, rfl⟩

/-- C2 (corrected): when the primary succeeds with a truthy (non-zero) rate,
at least one secondary succeeds, and the maximum absolute deviation from the
mean is ≥ 1.0, `get_exchange_rate` returns the primary's rate — and the
returned warnings list is empty (the high-deviation warning is only
logged). -/
theorem agg_high_deviation_uses_primary (pp : String) (sp : List String)
    (env : AggEnv) (base target : String) (pr : APICallResult)
    (pd : ExchangeRateResponse)
    (hv : (env.validator base target).1 = true)
    (hc : cacheLookup env.cache base target = none)
    (hpr : env.primaryResult = some pr)
    (hpd : pr.data = some (ParsedData.rate pd))
    (hws : pr.was_successful = true)
    (hds : pd.is_successful = true)
    (hne : (env.secondaryResults.filter callOk).isEmpty = false)
    (hnz : pd.rate ≠ 0)
    (hdev : (1 : ℚ) ≤ maxDev
        (pd.rate :: (env.secondaryResults.filter callOk).map (fun c => c.dataRate))
        (mean (pd.rate :: (env.secondaryResults.filter callOk).map (fun c => c.dataRate)))) :
    okRate (getExchangeRate pp sp env base target).result = some pd.rate ∧
    okWarnings (getExchangeRate pp sp env base target).result = some [] := by
  have hv' : ¬ ((env.validator base target).1 = false) := by simp [hv]
  have hps : primarySuccessData env.primaryResult = some pd := by
    rw [hpr]
    exact primarySuccessData_some_of hpd hws hds
  have hagg : aggregateResults pp env.primaryResult env.secondaryResults
      base target env.stale env.now 0 =
      Except.ok (aggregatePrimary pp pd (env.secondaryResults.filter callOk)
        base target env.now 0) := by
    unfold aggregateResults
    rw [hps]
  have hne' : ¬ ((env.secondaryResults.filter callOk).isEmpty = true) := by
    simp [hne]
  have hap : aggregatePrimary pp pd (env.secondaryResults.filter callOk)
      base target env.now 0 =
      { base_currency := base, target_currency := target, rate := pd.rate,
        confidence_level := "high",
        sources_used := [pp] ++
          (env.secondaryResults.filter callOk).map (fun c => c.provider_name),
        is_primary_used := false, cached := false, timestamp := env.now,
        response_time_ms := 0, warnings := [] } := by
    unfold aggregatePrimary
    rw [if_neg hne', if_pos ⟨hnz, hdev⟩]
  unfold getExchangeRate
  rw [if_neg hv', hc, hagg, hap]
  exact ⟨rfl, rfl⟩

/-- Witness for `agg_high_deviation_uses_primary` on the high-deviation
environment. -/
theorem agg_high_deviation_uses_primary_witness :
    okRate (getExchangeRate "FixerIO" ["CurrencyAPI"] envHighDev "USD" "EUR").result
      = some ((6 : ℚ)/5) ∧
    okWarnings (getExchangeRate "FixerIO" ["CurrencyAPI"] envHighDev "USD" "EUR").result
      = some ([] : List String) :=
  agg_high_deviation_uses_primary "FixerIO" ["CurrencyAPI"] envHighDev "USD" "EUR"
    (okCall "FixerIO" (6/5)) pdHigh
    rfl rfl rfl rfl rfl rfl rfl
    (by
      show (6 : ℚ)/5 ≠ 0
      norm_num)
    (by
      have hm : mean [(6 : ℚ)/5, 4] = 13/5 := by
        unfold mean
        simp only [List.sum_cons, List.sum_nil, List.length_cons, List.length_nil]
        norm_num
      show (1 : ℚ) ≤ maxDev [(6 : ℚ)/5, 4] (mean [(6 : ℚ)/5, 4])
      rw [hm]
      unfold maxDev
      refine le_trans ?_
        (le_foldr_max (List.mem_map_of_mem _ (by simp : (4 : ℚ) ∈ [(6 : ℚ)/5, 4])))
      show (1 : ℚ) ≤ |(4 : ℚ) - 13/5|
      rw [abs_of_nonneg (by norm_num : (0 : ℚ) ≤ 4 - 13/5)]
      norm_num)

/-- C3 counterexample: a transport timeout makes FixerIO's
`get_exchange_rate` RAISE (`httpx.TimeoutException` re-raised by
`_make_request`) instead of returning a failed Call Result — the Provider
Client does throw across its interface. -/
theorem provider_timeout_raises_cex :
    fixerGetExchangeRate "USD" "EUR" HttpOutcome.timeout 0 =
      Except.error ProviderExn.timeoutExn := rfl

/-- C3 (corrected): payload-level failures on a 2xx response are absorbed
into failed Call Results (never thrown), but transport failures — timeout,
4xx/5xx from `raise_for_status`, any other transport error — propagate as
raised exceptions out of `get_exchange_rate`. -/
theorem provider_transport_raises_payload_absorbed (base target msg : String)
    (status status2 now : Nat) (body : FixerPayload)
    (hok : status < 400) (herr : 400 ≤ status2) :
    isOkResult (fixerGetExchangeRate base target (HttpOutcome.ok status body) now) = true ∧
    (body.success = false →
        okWasSuccessful (fixerGetExchangeRate base target (HttpOutcome.ok status body) now)
          = some false) ∧
    fixerGetExchangeRate base target HttpOutcome.timeout now
      = Except.error ProviderExn.timeoutExn ∧
    fixerGetExchangeRate base target (HttpOutcome.transportError msg) now
      = Except.error (ProviderExn.otherExn msg) ∧
    fixerGetExchangeRate base target (HttpOutcome.ok status2 body) now
      = Except.error (ProviderExn.httpStatusExn status2) := by
  have hok' : ¬ (400 ≤ status) := by omega
  have hmk : makeRequest "FixerIO" "latest" (HttpOutcome.ok status body) =
      Except.ok
        ({ provider_name := "FixerIO", endpoint := "latest",
           http_status_code := some status, response_time_ms := 0,
           was_successful := true, error_message := none, data := none,
           raw_response := some body } : APICallResult) := by
    rw [show makeRequest "FixerIO" "latest" (HttpOutcome.ok status body) =
      (if 400 ≤ status then Except.error (ProviderExn.httpStatusExn status)
       else Except.ok
        ({ provider_name := "FixerIO", endpoint := "latest",
           http_status_code := some status, response_time_ms := 0,
           was_successful := true, error_message := none, data := none,
           raw_response := some body } : APICallResult)) from rfl]
    rw [if_neg hok']
  have hmk2 : makeRequest "FixerIO" "latest" (HttpOutcome.ok status2 body) =
      Except.error (ProviderExn.httpStatusExn status2) := by
    rw [show makeRequest "FixerIO" "latest" (HttpOutcome.ok status2 body) =
      (if 400 ≤ status2 then Except.error (ProviderExn.httpStatusExn status2)
       else Except.ok
        ({ provider_name := "FixerIO", endpoint := "latest",
           http_status_code := some status2, response_time_ms := 0,
           was_successful := true, error_message := none, data := none,
           raw_response := some body } : APICallResult)) from rfl]
    rw [if_pos herr]
  refine ⟨?_, ?_, rfl, rfl, ?_⟩
  · unfold fixerGetExchangeRate
    rw [hmk]
    rfl
  · intro hsucc
    unfold fixerGetExchangeRate
    rw [hmk]
    show some (fixerParseRateResponse body base target now).is_successful = some false
    unfold fixerParseRateResponse
    rw [if_pos hsucc]
  · unfold fixerGetExchangeRate
    rw [hmk2]

/-- Witness for `provider_transport_raises_payload_absorbed`: HTTP 200 with
an invalid-key envelope returns a failed Call Result; HTTP 404 raises. -/
theorem provider_transport_raises_payload_absorbed_witness :
    isOkResult (fixerGetExchangeRate "USD" "EUR"
        (HttpOutcome.ok 200 payloadInvalidKey) 0) = true ∧
    okWasSuccessful (fixerGetExchangeRate "USD" "EUR"
        (HttpOutcome.ok 200 payloadInvalidKey) 0) = some false ∧
    fixerGetExchangeRate "USD" "EUR" (HttpOutcome.ok 404 payloadInvalidKey) 0
      = Except.error (ProviderExn.httpStatusExn 404) := by
  have h := provider_transport_raises_payload_absorbed "USD" "EUR" "connection reset"
    200 404 0 payloadInvalidKey (by decide) (by decide)
  exact ⟨h.1, h.2.1 rfl, h.2.2.2.2⟩

/-- C8 (code bug, evaluated): with base "USD" and target set {"EUR", "USD"},
one ingestor cycle calls `get_exchange_rate("USD", "USD")` — the self-pair
is NOT excluded by `fetch_and_publish_for_base` — and produces 2 publishes
per cycle (6 over 3 healthy cycles), while `WorkerConfig.get_total_pairs`
(which the worker logs as the number of pairs to track, and which the spec's
K·M property counts) excludes the self-pair and gives M = 1. -/
theorem ingestor_self_pair_not_excluded :
    ("USD", "USD") ∈ (fetchAndPublishForBase healthyRate "USD" ["EUR", "USD"]).callsMade ∧
    (updateCycle healthyRate ["USD"] ["EUR", "USD"]).publishes.length = 2 ∧
    runCyclesPublishes healthyRate ["USD"] ["EUR", "USD"] 3 = 6 ∧
    getTotalPairs ["USD"] ["EUR", "USD"] = 1 := by
  refine ⟨by decide, rfl, rfl, rfl⟩

end CurrencyConverter
